import Mathlib

set_option autoImplicit false

namespace CountBot

/-!
Shallow embedding of the CountBot backend core, translated from the Python
sources under `backend/modules`.  Timestamps are modelled as rationals,
Python dicts as association lists, and asyncio queues as FIFO lists.
-/

/-! ### backend/modules/channels/base.py -/

/-- Embedding of `InboundMessage` (channels/base.py). -/
structure InboundMessage where
  channel : String
  sender_id : String
  chat_id : String
  content : String
  media : List String
  metadata : List (String × String)
  deriving Repr, DecidableEq

/-- Embedding of `OutboundMessage` (channels/base.py). -/
structure OutboundMessage where
  channel : String
  chat_id : String
  content : String
  deriving Repr, DecidableEq

/-! ### backend/modules/messaging/enterprise_queue.py -/

/-- Embedding of the `MessagePriority` enum. -/
inductive MessagePriority
  | LOW
  | NORMAL
  | HIGH
  | URGENT
  deriving Repr, DecidableEq

/-- The numeric `value` of each `MessagePriority` member. -/
def MessagePriority.value : MessagePriority → Int
  | .LOW => 0
  | .NORMAL => 1
  | .HIGH => 2
  | .URGENT => 3

/-- The enum constructor `MessagePriority(n)`; it is only applied to
results of `max(0, value - 1)`, which lie in 0..3. -/
def MessagePriority.ofValue : Int → MessagePriority
  | 0 => .LOW
  | 1 => .NORMAL
  | 2 => .HIGH
  | _ => .URGENT

/-- Embedding of the `QueuedMessage` dataclass. -/
structure QueuedMessage where
  id : String
  message : InboundMessage
  priority : MessagePriority
  timestamp : ℚ
  retry_count : ℕ
  max_retries : ℕ
  deriving Repr, DecidableEq

/-- Python dict removal `del d[k]` on an association list with unique keys. -/
def assocErase {α : Type} (k : String) (l : List (String × α)) : List (String × α) :=
  l.filter (fun p => p.1 ≠ k)

/-- Python dict assignment `d[k] = v` on an association list. -/
def assocInsert {α : Type} (k : String) (v : α) (l : List (String × α)) : List (String × α) :=
  (k, v) :: assocErase k l

/-- State of an `EnterpriseMessageQueue`: the four inbound priority queues,
the outbound queue, the dead-letter queue, the dedup hash table and the
metrics counters.  Queues are FIFO lists (head = front). -/
structure EMQState where
  urgent_q : List QueuedMessage
  high_q : List QueuedMessage
  normal_q : List QueuedMessage
  low_q : List QueuedMessage
  outbound : List OutboundMessage
  dead_letter_queue : List (QueuedMessage × String)
  message_hashes : List (String × ℚ)
  dedup_enabled : Bool
  dedup_window : ℚ
  total_received : ℕ
  total_processed : ℕ
  total_failed : ℕ
  total_duplicates : ℕ
  deriving Repr, DecidableEq

/-- The inbound queue `self._queues[priority]`. -/
def EMQState.getQueue (s : EMQState) : MessagePriority → List QueuedMessage
  | .URGENT => s.urgent_q
  | .HIGH => s.high_q
  | .NORMAL => s.normal_q
  | .LOW => s.low_q

/-- Replace the inbound queue stored under `priority`. -/
def EMQState.putQueue (s : EMQState) (p : MessagePriority) (q : List QueuedMessage) : EMQState :=
  match p with
  | .URGENT => { s with urgent_q := q }
  | .HIGH => { s with high_q := q }
  | .NORMAL => { s with normal_q := q }
  | .LOW => { s with low_q := q }

/-- `EnterpriseMessageQueue.__init__` with no persistence. -/
def EMQState.init (enable_dedup : Bool) (dedup_window : ℚ) : EMQState :=
  { urgent_q := [], high_q := [], normal_q := [], low_q := []
    outbound := [], dead_letter_queue := [], message_hashes := []
    dedup_enabled := enable_dedup, dedup_window := dedup_window
    total_received := 0, total_processed := 0, total_failed := 0, total_duplicates := 0 }

/-- `EnterpriseMessageQueue._hash_message`: the dedup fingerprint is the md5
hex digest of `"channel:chat_id:sender_id:content"`.  The md5 function itself
is an external library, passed in as `md5hex`. -/
def hash_message (md5hex : String → String) (msg : InboundMessage) : String :=
  md5hex (msg.channel ++ ":" ++ msg.chat_id ++ ":" ++ msg.sender_id ++ ":" ++ msg.content)

/-- `EnterpriseMessageQueue._is_duplicate`: returns the verdict and the state
(the entry is deleted when it is older than the dedup window). -/
def is_duplicate (s : EMQState) (msg_hash : String) (now : ℚ) : Bool × EMQState :=
  match s.message_hashes.lookup msg_hash with
  | none => (false, s)
  | some timestamp =>
    if now - timestamp > s.dedup_window then
      (false, { s with message_hashes := assocErase msg_hash s.message_hashes })
    else
      (true, s)

/-- `EnterpriseMessageQueue.enqueue`.  `now` stands for `time.time()` and
`uuid` for `uuid.uuid4()`; persistence is disabled.  Returns `false` and
bumps the duplicate counter when the message is dropped as a duplicate,
otherwise appends a fresh `QueuedMessage` to the queue of `priority` and
bumps the received counter. -/
def enqueue (md5hex : String → String) (s : EMQState) (message : InboundMessage)
    (priority : MessagePriority) (now : ℚ) (uuid : String) : Bool × EMQState :=
  let step : EMQState × Option String :=
    if s.dedup_enabled then
      let msg_hash := hash_message md5hex message
      let (dup, s1) := is_duplicate s msg_hash now
      if dup then (s1, none)
      else ({ s1 with message_hashes := assocInsert msg_hash now s1.message_hashes },
            some msg_hash)
    else (s, some "")
  match step with
  | (s1, none) => (false, { s1 with total_duplicates := s1.total_duplicates + 1 })
  | (s1, some _) =>
    let queued_msg : QueuedMessage :=
      { id := uuid, message := message, priority := priority, timestamp := now
        retry_count := 0, max_retries := 3 }
    let s2 := s1.putQueue priority (s1.getQueue priority ++ [queued_msg])
    (true, { s2 with total_received := s2.total_received + 1 })

/-- `EnterpriseMessageQueue.dequeue`: pop from the highest-priority nonempty
queue; `none` models blocking when all queues are empty. -/
def dequeue (s : EMQState) : Option (QueuedMessage × EMQState) :=
  match s.urgent_q with
  | m :: rest => some (m, { s with urgent_q := rest })
  | [] =>
    match s.high_q with
    | m :: rest => some (m, { s with high_q := rest })
    | [] =>
      match s.normal_q with
      | m :: rest => some (m, { s with normal_q := rest })
      | [] =>
        match s.low_q with
        | m :: rest => some (m, { s with low_q := rest })
        | [] => none

/-- `EnterpriseMessageQueue.mark_failed`: bump the retry count; below the
ceiling, re-enqueue on the queue one priority step lower (clamped at LOW,
and without changing the message's own `priority` field); at the ceiling,
push `(msg, error)` onto the dead-letter queue and bump the failed counter.
Returns the new state together with the mutated message. -/
def mark_failed (s : EMQState) (msg : QueuedMessage) (error : String) :
    EMQState × QueuedMessage :=
  let m := { msg with retry_count := msg.retry_count + 1 }
  if m.retry_count < m.max_retries then
    let lower_priority := MessagePriority.ofValue (max 0 (msg.priority.value - 1))
    (s.putQueue lower_priority (s.getQueue lower_priority ++ [m]), m)
  else
    ({ s with dead_letter_queue := s.dead_letter_queue ++ [(m, error)]
              total_failed := s.total_failed + 1 }, m)

/-- Total inbound queue size, `EnterpriseMessageQueue.get_queue_size`. -/
def EMQState.inbound_size (s : EMQState) : ℕ :=
  s.urgent_q.length + s.high_q.length + s.normal_q.length + s.low_q.length

/-- One consumer round of the retry scenario: dequeue the next message and
mark it failed (what the processing loop does when the handler raises). -/
def failOnce (s : EMQState) (error : String) : EMQState :=
  match dequeue s with
  | some (m, s1) => (mark_failed s1 m error).1
  | none => s

/-! ### backend/modules/session/manager.py -/

/-- Embedding of the `Session` model rows used by `SessionManager`. -/
structure Session where
  id : String
  name : String
  created_at : ℚ
  updated_at : ℚ
  deriving Repr, DecidableEq

/-- Embedding of the `Message` model rows used by `SessionManager`. -/
structure Message where
  session_id : String
  role : String
  content : String
  created_at : ℚ
  deriving Repr, DecidableEq

/-- The database tables behind a `SessionManager`. -/
structure SessionStore where
  sessions : List Session
  messages : List Message
  deriving Repr, DecidableEq

/-- `SessionManager.get_session`: select by primary key. -/
def get_session (st : SessionStore) (session_id : String) : Option Session :=
  st.sessions.find? (fun s => s.id == session_id)

/-- The roles accepted by `SessionManager.add_message`
(`role not in ('user', 'assistant', 'system')` raises `ValueError`). -/
def validRoles : List String := ["user", "assistant", "system"]

/-- `SessionManager.add_message`.  `now` stands for `datetime.now(...)`.
Returns `.ok (store, none)` when the session does not exist (Python returns
`None`), `.error` when the role is rejected (Python raises `ValueError`),
and otherwise stores the message, touches the session's `updated_at` and
returns the stored message. -/
def add_message (st : SessionStore) (now : ℚ) (session_id role content : String) :
    Except String (SessionStore × Option Message) :=
  match get_session st session_id with
  | none => .ok (st, none)
  | some _ =>
    if role ∈ validRoles then
      let message : Message :=
        { session_id := session_id, role := role, content := content, created_at := now }
      .ok ({ sessions := st.sessions.map (fun s =>
               if s.id == session_id then { s with updated_at := now } else s)
             messages := st.messages ++ [message] }, some message)
    else
      .error ("Invalid role: " ++ role)

/-! ### backend/modules/agent/memory.py

The memory file is modelled by the list of its lines, the view
`MemoryStore._read_lines` produces and `_write_lines` persists. -/

/-- The characters Python `str.split()` treats as whitespace. -/
def pyIsSpace (c : Char) : Bool :=
  c = ' ' || c = '\t' || c = '\n' || c = '\r' || c = '\x0b' || c = '\x0c'

/-- Python `str.strip()`: drop whitespace from both ends. -/
def pyStrip (s : String) : String :=
  String.mk (((s.data.dropWhile pyIsSpace).reverse.dropWhile pyIsSpace).reverse)

/-- The content cleanup in `MemoryStore.append_entry`: CR and LF are replaced
by spaces, then `' '.join(content.split())` collapses whitespace runs. -/
def cleanContent (content : String) : String :=
  let content := (content.replace "\n" " ").replace "\r" " "
  " ".intercalate ((content.split pyIsSpace).filter (fun w => w ≠ ""))

/-- `MemoryStore.append_entry`: build `date|source|content` with cleaned
content, append it, return the 1-based line number after the write.
`today` stands for `datetime.now().strftime(...)`. -/
def append_entry (lines : List String) (today source content : String) :
    List String × ℕ :=
  let entry := today ++ "|" ++ source ++ "|" ++ cleanContent content
  (lines ++ [entry], (lines ++ [entry]).length)

/-- `MemoryStore.read_lines`: read lines `start..end` (1-based, clamped to
the valid range), each prefixed with its line number; `none` for `end`
means just the `start` line; the empty file gives a placeholder. -/
def read_lines (lines : List String) (start : ℤ) (stop : Option ℤ) : String :=
  let total : ℤ := lines.length
  if lines.length = 0 then "记忆为空"
  else
    let e := stop.getD start
    let start := max 1 (min start total)
    let e := max start (min e total)
    let lo := (start - 1).toNat
    let hi := e.toNat
    "\n".intercalate ((List.range' lo (hi - lo)).map
      (fun i => "[" ++ toString (i + 1) ++ "] " ++ lines.getD i ""))

/-- `MemoryStore.delete_lines`: drop every line whose 1-based number is in
`line_numbers`; returns (file lines, number deleted, whether the file was
rewritten — the code only rewrites when something was deleted). -/
def delete_lines (lines : List String) (line_numbers : List ℤ) :
    List String × ℕ × Bool :=
  if lines.length = 0 then (lines, 0, false)
  else
    let new_lines := (lines.enum.filter
      (fun p => ¬ ((p.1 + 1 : ℤ) ∈ line_numbers))).map Prod.snd
    let deleted := lines.length - new_lines.length
    if 0 < deleted then (new_lines, deleted, true) else (lines, deleted, false)

/-! ### backend/modules/messaging/rate_limiter.py -/

/-- Python `int()` applied to a rational: truncation toward zero. -/
def pyInt (q : ℚ) : ℤ :=
  if 0 ≤ q then ⌊q⌋ else -⌊-q⌋

/-- State of a `RateLimiter`: the construction parameters and the per-user
token buckets `{user_id: (tokens, last_update)}`. -/
structure RateLimiterState where
  rate : ℕ
  per : ℕ
  buckets : List (String × (ℚ × ℚ))
  deriving Repr, DecidableEq

/-- `RateLimiter.__init__`. -/
def RateLimiterState.init (rate per : ℕ) : RateLimiterState :=
  { rate := rate, per := per, buckets := [] }

/-- `RateLimiter.check`.  `now` stands for `time.time()`.  Returns
`((allowed, wait_time), state)`; the denial message reports `wait_time`
seconds.  A first-ever request installs a full bucket minus one; otherwise
tokens are replenished at `rate / per` per second (capped at `rate`),
one token is consumed when at least one is available, and the request is
denied otherwise (leaving the bucket entry unchanged). -/
def check (st : RateLimiterState) (user_id : String) (now : ℚ) :
    (Bool × ℤ) × RateLimiterState :=
  match st.buckets.lookup user_id with
  | none =>
    ((true, 0), { st with buckets := assocInsert user_id ((st.rate : ℚ) - 1, now) st.buckets })
  | some (tokens, last_update) =>
    let elapsed := now - last_update
    let tokens := min (st.rate : ℚ) (tokens + elapsed * ((st.rate : ℚ) / (st.per : ℚ)))
    if 1 ≤ tokens then
      ((true, 0), { st with buckets := assocInsert user_id (tokens - 1, now) st.buckets })
    else
      ((false, pyInt ((1 - tokens) * ((st.per : ℚ) / (st.rate : ℚ)))), st)

/-- Run `check` for one user at each time in `times`, collecting results. -/
def checkRun (st : RateLimiterState) (user_id : String) (times : List ℚ) :
    List (Bool × ℤ) × RateLimiterState :=
  match times with
  | [] => ([], st)
  | t :: rest =>
    let (r, st1) := check st user_id t
    let (rs, st2) := checkRun st1 user_id rest
    (r :: rs, st2)

/-- A limiter state holding one user's bucket. -/
def singleBucket (rate per : ℕ) (u : String) (tokens last : ℚ) : RateLimiterState :=
  { rate := rate, per := per, buckets := [(u, (tokens, last))] }

/-! ### backend/modules/cron/service.py and scheduler.py

Cron expressions are handled by the external `croniter` library; a schedule
is modelled as a period of `p` seconds (`p = 0` standing for an expression
`croniter` rejects), and `croniter(schedule, base).get_next(...)` as the
smallest multiple of `p` strictly greater than `base`. -/

/-- `CronService.validate_schedule` on the periodic model. -/
def validate_schedule (p : ℕ) : Bool := p ≠ 0

/-- `CronService.calculate_next_run` on the periodic model: the first
schedule point strictly after `base` (croniter's `get_next`). -/
def calculate_next_run (p : ℕ) (base : ℚ) : ℚ :=
  (p : ℚ) * (⌊base / (p : ℚ)⌋ + 1)

/-- Embedding of the `CronJob` model rows. -/
structure CronJob where
  id : String
  name : String
  schedule : ℕ
  message : String
  enabled : Bool
  next_run : Option ℚ
  last_run : Option ℚ
  last_status : Option String
  run_count : ℕ
  error_count : ℕ
  created_at : ℚ
  updated_at : ℚ
  deriving Repr, DecidableEq

/-- `CronService.add_job`.  `now` stands for the current Shanghai time and
`id` for `uuid.uuid4()`. -/
def add_job (now : ℚ) (id name : String) (schedule : ℕ) (message : String)
    (enabled : Bool) : Except String CronJob :=
  if ¬ validate_schedule schedule then .error "Invalid cron"
  else
    .ok { id := id, name := name, schedule := schedule, message := message
          enabled := enabled
          next_run := if enabled then some (calculate_next_run schedule now) else none
          last_run := none, last_status := none, run_count := 0, error_count := 0
          created_at := now, updated_at := now }

/-- The optional field updates accepted by `CronService.update_job`. -/
structure CronJobUpdate where
  name : Option String
  schedule : Option ℕ
  message : Option String
  enabled : Option Bool
  deriving Repr, DecidableEq

/-- The field changes applied by `CronService.update_job` before it
recomputes `next_run`. -/
def apply_updates (job : CronJob) (u : CronJobUpdate) : CronJob :=
  let job := match u.name with | some n => { job with name := n } | none => job
  let job := match u.schedule with | some p => { job with schedule := p } | none => job
  let job := match u.message with | some m => { job with message := m } | none => job
  match u.enabled with | some e => { job with enabled := e } | none => job

/-- `CronService.update_job` on an existing job: a provided schedule that
`croniter` rejects raises, as does recomputing `next_run` for an enabled
job whose stored schedule is invalid; otherwise the requested field
changes are applied and `next_run` is recomputed — set from `now` when the
job ends up enabled, cleared when disabled. -/
def update_job (job : CronJob) (u : CronJobUpdate) (now : ℚ) : Except String CronJob :=
  if (match u.schedule with
      | some p => !(validate_schedule p)
      | none => false) then .error "Invalid cron"
  else
    let j := apply_updates job u
    if j.enabled ∧ ¬ validate_schedule j.schedule then .error "Invalid cron"
    else
      .ok { j with
            next_run := if j.enabled then some (calculate_next_run j.schedule now) else none
            updated_at := now }

/-- `CronScheduler._recompute_next_runs`: every enabled job gets a fresh
`next_run` computed from `now`; a job whose schedule `croniter` rejects is
left untouched (the exception is logged); disabled jobs are not selected. -/
def recompute_next_runs (jobs : List CronJob) (now : ℚ) : List CronJob :=
  jobs.map (fun j =>
    if j.enabled then
      if validate_schedule j.schedule then
        { j with next_run := some (calculate_next_run j.schedule now) }
      else j
    else j)

/-- The success path of `CronScheduler._execute_job` with an executor set:
record the run statistics, then — the job being enabled — recompute
`next_run` with `base_time = started_at`, the time the execution started
(on a `croniter` failure the job is disabled instead). -/
def execute_job (job : CronJob) (started_at : ℚ) (response : Option String) : CronJob :=
  let job := { job with
               last_run := some started_at
               last_status := some "ok"
               run_count := job.run_count + 1 }
  let _ := response
  if job.enabled then
    if validate_schedule job.schedule then
      { job with next_run := some (calculate_next_run job.schedule started_at) }
    else
      { job with enabled := false }
  else job

/-- The spec's cron invariant at time `now`: an enabled job has `next_run`
set strictly in the future, a disabled job has it unset. -/
def cronInvariant (j : CronJob) (now : ℚ) : Prop :=
  (j.enabled = true → ∃ t, j.next_run = some t ∧ now < t) ∧
  (j.enabled = false → j.next_run = none)

/-! ### backend/modules/providers/litellm_provider.py

Only the tool-call assembly at the end of `chat_stream` is embedded; the
JSON decoder (`json.loads`) is an external library, passed in as a partial
parsing function. -/

/-- A JSON value, as produced by the argument decoding. -/
inductive Json
  | obj (fields : List (String × Json))
  | arr (items : List Json)
  | str (s : String)
  | num (n : ℤ)
  | boolean (b : Bool)
  | null

/-- A structured tool call delivered to the agent (`ToolCall` in base.py). -/
structure ToolCall where
  id : String
  name : String
  arguments : Json

/-- One entry of `tool_call_buffer`: accumulated id, name and raw argument
string of a streamed tool call. -/
structure ToolCallBuf where
  id : String
  name : String
  arguments : String
  deriving Repr, DecidableEq

/-- The argument decoding applied when the finish signal arrives:
strip the accumulated string; an empty result is the empty object (without
consulting the JSON decoder); otherwise decode, and on failure wrap the raw
string as the field `raw` of an object. -/
def parse_arguments (parseJson : String → Option Json) (accumulated : String) : Json :=
  let args_str := pyStrip accumulated
  if args_str = "" then Json.obj []
  else
    match parseJson args_str with
    | some j => j
    | none => Json.obj [("raw", Json.str args_str)]

/-- The finish-signal handling of `chat_stream`: every buffered tool call
that has a name is delivered, with its arguments decoded. -/
def finish_tool_calls (parseJson : String → Option Json) (buffer : List ToolCallBuf) :
    List ToolCall :=
  (buffer.filter (fun b => b.name ≠ "")).map
    (fun b => { id := b.id, name := b.name
                arguments := parse_arguments parseJson b.arguments })

/-! ### backend/modules/channels/handler.py

`ChannelMessageHandler.start_processing` consumes one inbound message at a
time and spawns `asyncio.create_task(self.handle_message(msg))` for it,
unconditionally; handler tasks end on their own.  The dispatch state below
records the sessions with an in-flight `handle_message` task. -/

/-- Sessions with an in-flight `handle_message` task (a multiset: the same
session may appear several times). -/
structure DispatcherState where
  running : List String
  deriving Repr, DecidableEq

/-- Events of the processing loop: a message for session `sid` is consumed
from the bus, or a handler task for `sid` finishes. -/
inductive DispatchEvent
  | consume (sid : String)
  | finish (sid : String)
  deriving Repr, DecidableEq

/-- One step of the processing loop.  On `consume`, `start_processing`
spawns a handler task immediately — it consults no per-session lock, queue
or task set before doing so. -/
def dispatchStep (s : DispatcherState) : DispatchEvent → DispatcherState
  | .consume sid => ⟨sid :: s.running⟩
  | .finish sid => ⟨s.running.erase sid⟩

/-- Run the processing loop from an idle start over a list of events. -/
def runDispatch (events : List DispatchEvent) : DispatcherState :=
  events.foldl dispatchStep ⟨[]⟩

/-! ## Theorems -/

/-- C1 counterexample: on a store holding the session `"s1"`, adding a
message with role `"tool"` raises (`ValueError` in the code, `.error` here)
instead of succeeding, refuting the claim that every role in
\{user, assistant, system, tool\} is accepted. -/
theorem add_message_tool_rejected :
    (get_session ⟨[⟨"s1", "chat", 0, 0⟩], []⟩ "s1").isSome = true ∧
    add_message ⟨[⟨"s1", "chat", 0, 0⟩], []⟩ 1 "s1" "tool" "hi" =
      .error ("Invalid role: " ++ "tool") := by
  constructor
  · rfl
  · rfl

/-- C1 (amended): for every existing session and every role in
\{user, assistant, system\}, `add_message` succeeds, returns the stored
message and sets the session's `updated_at` to the current time; it fails
exactly when the role lies outside that three-element set (so in
particular for `"tool"`). -/
theorem add_message_role_spec (st : SessionStore) (now : ℚ)
    (sid role content : String) (hs : (get_session st sid).isSome = true) :
    (role ∈ validRoles →
      add_message st now sid role content =
        .ok ({ sessions := st.sessions.map (fun s =>
                 if s.id == sid then { s with updated_at := now } else s)
               messages := st.messages ++ [⟨sid, role, content, now⟩] },
             some ⟨sid, role, content, now⟩) ∧
      (get_session { sessions := st.sessions.map (fun s =>
                       if s.id == sid then { s with updated_at := now } else s)
                     messages := st.messages ++ [⟨sid, role, content, now⟩] }
          sid).map Session.updated_at = some now) ∧
    (role ∉ validRoles →
      add_message st now sid role content = .error ("Invalid role: " ++ role)) := by
  match h : get_session st sid with
  | none => simp [h] at hs
  | some sess =>
    have hpred : (fun s : Session => s.id == sid) ∘
        (fun s : Session => if s.id == sid then { s with updated_at := now } else s) =
        fun s : Session => s.id == sid := by
      funext s
      by_cases hc : (s.id == sid) = true
      · simp [Function.comp, hc]
      · simp [Function.comp, hc]
    have hfind : st.sessions.find? (fun s => s.id == sid) = some sess := h
    have hsid := List.find?_some hfind
    constructor
    · intro hrole
      have hok : add_message st now sid role content =
          .ok ({ sessions := st.sessions.map (fun s =>
                   if s.id == sid then { s with updated_at := now } else s)
                 messages := st.messages ++ [⟨sid, role, content, now⟩] },
               some ⟨sid, role, content, now⟩) := by
        simp [add_message, h, hrole]
      refine ⟨hok, ?_⟩
      show ((st.sessions.map _).find? _).map Session.updated_at = some now
      rw [List.find?_map, hpred]
      rw [hfind]
      have hid : sess.id = sid := by simpa using hsid
      simp [hid]
    · intro hrole
      simp [add_message, h, hrole]

/-- C1 witness: the amended statement evaluated on a concrete store with
one session and the role `"user"`. -/
theorem add_message_role_spec_witness :
    (get_session ⟨[⟨"s1", "chat", 0, 0⟩], []⟩ "s1").isSome = true ∧
    (("user" ∈ validRoles →
      add_message ⟨[⟨"s1", "chat", 0, 0⟩], []⟩ 2 "s1" "user" "hello" =
        .ok ({ sessions := [⟨"s1", "chat", 0, 0⟩].map (fun s =>
                 if s.id == "s1" then { s with updated_at := 2 } else s)
               messages := ([] : List Message) ++ [⟨"s1", "user", "hello", 2⟩] },
             some ⟨"s1", "user", "hello", 2⟩) ∧
      (get_session { sessions := [(⟨"s1", "chat", 0, 0⟩ : Session)].map (fun s =>
                       if s.id == "s1" then { s with updated_at := 2 } else s)
                     messages := ([] : List Message) ++ [⟨"s1", "user", "hello", 2⟩] }
          "s1").map Session.updated_at = some 2) ∧
    ("user" ∉ validRoles →
      add_message ⟨[⟨"s1", "chat", 0, 0⟩], []⟩ 2 "s1" "user" "hello" =
        .error ("Invalid role: " ++ "user"))) :=
  ⟨by decide, add_message_role_spec ⟨[⟨"s1", "chat", 0, 0⟩], []⟩ 2 "s1" "user" "hello"
    (by decide)⟩

/-- C2: the processing loop consults no per-session state before spawning a
handler: `dispatchStep` on a consume event starts a handler task no matter
which handlers are already running, and consuming two messages for session
`"s1"` back-to-back (the first handler still in flight) leaves two
handlers for `"s1"` running at once — the at-most-one-per-session claim
fails on the code, which has no per-session queueing. -/
theorem dispatch_no_per_session_serialization :
    (∀ (s : DispatcherState) (sid : String),
      dispatchStep s (.consume sid) = ⟨sid :: s.running⟩) ∧
    (runDispatch [.consume "s1", .consume "s1"]).running.count "s1" = 2 := by
  constructor
  · intro s sid
    rfl
  · rfl

/-- Fields of the queue state other than the four inbound queues are
untouched by `putQueue`. -/
theorem putQueue_frame (s : EMQState) (p : MessagePriority) (q : List QueuedMessage) :
    (s.putQueue p q).outbound = s.outbound ∧
    (s.putQueue p q).dead_letter_queue = s.dead_letter_queue ∧
    (s.putQueue p q).message_hashes = s.message_hashes ∧
    (s.putQueue p q).dedup_enabled = s.dedup_enabled ∧
    (s.putQueue p q).dedup_window = s.dedup_window ∧
    (s.putQueue p q).total_received = s.total_received ∧
    (s.putQueue p q).total_processed = s.total_processed ∧
    (s.putQueue p q).total_failed = s.total_failed ∧
    (s.putQueue p q).total_duplicates = s.total_duplicates := by
  cases p <;> exact ⟨rfl, rfl, rfl, rfl, rfl, rfl, rfl, rfl, rfl⟩

/-- Reading back the queue written by `putQueue`, and the other queues. -/
theorem getQueue_putQueue (s : EMQState) (p : MessagePriority) (q : List QueuedMessage) :
    (s.putQueue p q).getQueue p = q ∧
    ∀ p', p' ≠ p → (s.putQueue p q).getQueue p' = s.getQueue p' := by
  constructor
  · cases p <;> rfl
  · intro p' hne
    cases p <;> cases p' <;> first | exact absurd rfl hne | rfl

/-- C4: `mark_failed` bumps the retry count and returns the mutated
message; below the retry ceiling it re-enqueues the message on the queue
one step below the message's priority (clamped at LOW) and leaves the
dead-letter queue and failed counter alone; at the ceiling it pushes
`(message, error)` once onto the dead-letter queue, bumps the failed
counter and leaves every inbound queue alone.  Moreover one
NORMAL-priority message, enqueued and then failed three times by the
consumer loop, ends with inbound depth 0 and dead-letter depth 1. -/
theorem mark_failed_spec (s : EMQState) (msg : QueuedMessage) (error : String) :
    ((mark_failed s msg error).2 = { msg with retry_count := msg.retry_count + 1 }) ∧
    (msg.retry_count + 1 < msg.max_retries →
      (mark_failed s msg error).1 =
        s.putQueue (MessagePriority.ofValue (max 0 (msg.priority.value - 1)))
          (s.getQueue (MessagePriority.ofValue (max 0 (msg.priority.value - 1))) ++
            [{ msg with retry_count := msg.retry_count + 1 }]) ∧
      (MessagePriority.ofValue (max 0 (msg.priority.value - 1))).value =
        max 0 (msg.priority.value - 1) ∧
      (mark_failed s msg error).1.dead_letter_queue = s.dead_letter_queue ∧
      (mark_failed s msg error).1.total_failed = s.total_failed) ∧
    (¬ msg.retry_count + 1 < msg.max_retries →
      (mark_failed s msg error).1 =
        { s with
          dead_letter_queue := s.dead_letter_queue ++
            [({ msg with retry_count := msg.retry_count + 1 }, error)]
          total_failed := s.total_failed + 1 }) ∧
    ((failOnce (failOnce (failOnce
        (enqueue id (EMQState.init true 60)
          ⟨"telegram", "u1", "c1", "hello", [], []⟩ .NORMAL 0 "id0").2
        "e1") "e2") "e3").inbound_size = 0 ∧
      (failOnce (failOnce (failOnce
        (enqueue id (EMQState.init true 60)
          ⟨"telegram", "u1", "c1", "hello", [], []⟩ .NORMAL 0 "id0").2
        "e1") "e2") "e3").dead_letter_queue.length = 1) := by
  refine ⟨?_, ?_, ?_, by decide, by decide⟩
  · unfold mark_failed
    dsimp only
    split <;> rfl
  · intro hlt
    have hm : (mark_failed s msg error).1 =
        s.putQueue (MessagePriority.ofValue (max 0 (msg.priority.value - 1)))
          (s.getQueue (MessagePriority.ofValue (max 0 (msg.priority.value - 1))) ++
            [{ msg with retry_count := msg.retry_count + 1 }]) := by
      unfold mark_failed
      dsimp only
      rw [if_pos hlt]
    refine ⟨hm, by cases msg.priority <;> decide, ?_, ?_⟩
    · rw [hm]
      exact (putQueue_frame _ _ _).2.1
    · rw [hm]
      exact (putQueue_frame _ _ _).2.2.2.2.2.2.2.1
  · intro hge
    unfold mark_failed
    dsimp only
    rw [if_neg hge]

/-- C4 witness: the retry branch evaluated on a fresh NORMAL message and
the dead-letter branch on a message at its last retry. -/
theorem mark_failed_spec_witness :
    ((0 : ℕ) + 1 < 3 ∧
      (mark_failed (EMQState.init true 60)
        ⟨"m1", ⟨"telegram", "u1", "c1", "hello", [], []⟩, .NORMAL, 0, 0, 3⟩ "boom").1 =
        (EMQState.init true 60).putQueue
          (MessagePriority.ofValue (max 0 ((MessagePriority.NORMAL).value - 1)))
          ((EMQState.init true 60).getQueue
            (MessagePriority.ofValue (max 0 ((MessagePriority.NORMAL).value - 1))) ++
            [⟨"m1", ⟨"telegram", "u1", "c1", "hello", [], []⟩, .NORMAL, 0, 1, 3⟩])) ∧
    (¬ (2 : ℕ) + 1 < 3 ∧
      (mark_failed (EMQState.init true 60)
        ⟨"m1", ⟨"telegram", "u1", "c1", "hello", [], []⟩, .NORMAL, 0, 2, 3⟩ "boom").1 =
        { EMQState.init true 60 with
          dead_letter_queue := [] ++
            [(⟨"m1", ⟨"telegram", "u1", "c1", "hello", [], []⟩, .NORMAL, 0, 3, 3⟩, "boom")]
          total_failed := 0 + 1 }) :=
  ⟨⟨by decide, ((mark_failed_spec (EMQState.init true 60)
      ⟨"m1", ⟨"telegram", "u1", "c1", "hello", [], []⟩, .NORMAL, 0, 0, 3⟩
      "boom").2.1 (by decide)).1⟩,
   ⟨by decide, (mark_failed_spec (EMQState.init true 60)
      ⟨"m1", ⟨"telegram", "u1", "c1", "hello", [], []⟩, .NORMAL, 0, 2, 3⟩
      "boom").2.2.1 (by decide)⟩⟩

/-- The duplicate branch of `enqueue`: with dedup on and a recorded
fingerprint no older than the window, the message is dropped and only the
duplicate counter changes. -/
theorem enqueue_dup_eq (md5hex : String → String) (s : EMQState) (m : InboundMessage)
    (p : MessagePriority) (now : ℚ) (u : String) (ts : ℚ)
    (hde : s.dedup_enabled = true)
    (hl : s.message_hashes.lookup (hash_message md5hex m) = some ts)
    (hage : ¬ now - ts > s.dedup_window) :
    enqueue md5hex s m p now u =
      (false, { s with total_duplicates := s.total_duplicates + 1 }) := by
  unfold enqueue is_duplicate
  simp [hde, hl, hage]

/-- With dedup on and no fingerprint recorded, `enqueue` accepts. -/
theorem enqueue_nohash_true (md5hex : String → String) (s : EMQState) (m : InboundMessage)
    (p : MessagePriority) (now : ℚ) (u : String)
    (hde : s.dedup_enabled = true)
    (hl : s.message_hashes.lookup (hash_message md5hex m) = none) :
    (enqueue md5hex s m p now u).1 = true := by
  unfold enqueue is_duplicate
  simp [hde, hl]

/-- With dedup on and a fingerprint older than the window, `enqueue`
accepts (the stale entry is dropped). -/
theorem enqueue_expired_true (md5hex : String → String) (s : EMQState) (m : InboundMessage)
    (p : MessagePriority) (now : ℚ) (u : String) (ts : ℚ)
    (hde : s.dedup_enabled = true)
    (hl : s.message_hashes.lookup (hash_message md5hex m) = some ts)
    (hage : now - ts > s.dedup_window) :
    (enqueue md5hex s m p now u).1 = true := by
  unfold enqueue is_duplicate
  simp [hde, hl, hage]

/-- What an accepted `enqueue` does: a fresh `QueuedMessage` (retry 0,
ceiling 3) is appended to the requested queue, the received counter is
bumped, the dedup parameters survive, and (with dedup on) the message's
fingerprint is now recorded at `now`. -/
theorem enqueue_accept_spec (md5hex : String → String) (s : EMQState) (m : InboundMessage)
    (p : MessagePriority) (now : ℚ) (u : String)
    (hacc : (enqueue md5hex s m p now u).1 = true) :
    (enqueue md5hex s m p now u).2.total_received = s.total_received + 1 ∧
    (enqueue md5hex s m p now u).2.getQueue p =
      s.getQueue p ++ [⟨u, m, p, now, 0, 3⟩] ∧
    (∀ p', p' ≠ p →
      (enqueue md5hex s m p now u).2.getQueue p' = s.getQueue p') ∧
    (enqueue md5hex s m p now u).2.dedup_enabled = s.dedup_enabled ∧
    (enqueue md5hex s m p now u).2.dedup_window = s.dedup_window ∧
    (s.dedup_enabled = true →
      (enqueue md5hex s m p now u).2.message_hashes.lookup (hash_message md5hex m) =
        some now) := by
  cases hde : s.dedup_enabled
  case false =>
    unfold enqueue
    simp only [hde, Bool.false_eq_true, if_false]
    refine ⟨?_, ?_, ?_, ?_, ?_, ?_⟩
    · cases p <;> rfl
    · exact (getQueue_putQueue _ p _).1
    · intro p' hne
      exact (getQueue_putQueue _ p _).2 p' hne
    · cases p <;> simp [EMQState.putQueue, hde]
    · cases p <;> rfl
    · intro hcontra
      exact hcontra.elim
  case true =>
    cases hl : s.message_hashes.lookup (hash_message md5hex m)
    case none =>
      unfold enqueue is_duplicate
      simp only [hde, if_true, hl]
      refine ⟨?_, ?_, ?_, ?_, ?_, ?_⟩
      · cases p <;> rfl
      · exact (getQueue_putQueue _ p _).1
      · intro p' hne
        exact (getQueue_putQueue _ p _).2 p' hne
      · cases p <;> rfl
      · cases p <;> rfl
      · intro _
        have : ∀ q : EMQState, q.message_hashes =
            assocInsert (hash_message md5hex m) now s.message_hashes →
            q.message_hashes.lookup (hash_message md5hex m) = some now := by
          intro q hq
          rw [hq]
          simp [assocInsert, List.lookup]
        exact this _ (by cases p <;> rfl)
    case some ts =>
      by_cases hage : now - ts > s.dedup_window
      · unfold enqueue is_duplicate
        simp only [hde, if_true, hl]
        rw [if_pos hage]
        simp only
        refine ⟨?_, ?_, ?_, ?_, ?_, ?_⟩
        · cases p <;> rfl
        · exact (getQueue_putQueue _ p _).1
        · intro p' hne
          exact (getQueue_putQueue _ p _).2 p' hne
        · cases p <;> rfl
        · cases p <;> rfl
        · intro _
          have : ∀ q : EMQState, q.message_hashes =
              assocInsert (hash_message md5hex m) now
                (assocErase (hash_message md5hex m) s.message_hashes) →
              q.message_hashes.lookup (hash_message md5hex m) = some now := by
            intro q hq
            rw [hq]
            simp [assocInsert, List.lookup]
          exact this _ (by cases p <;> rfl)
      · rw [enqueue_dup_eq md5hex s m p now u ts hde hl hage] at hacc
        simp at hacc

/-- A rejected `enqueue` is exactly the duplicate drop: only the duplicate
counter changes. -/
theorem enqueue_false_eq (md5hex : String → String) (s : EMQState) (m : InboundMessage)
    (p : MessagePriority) (now : ℚ) (u : String)
    (h : (enqueue md5hex s m p now u).1 = false) :
    enqueue md5hex s m p now u =
      (false, { s with total_duplicates := s.total_duplicates + 1 }) := by
  cases hde : s.dedup_enabled
  case false =>
    exact absurd h (by
      unfold enqueue
      simp [hde])
  case true =>
    cases hl : s.message_hashes.lookup (hash_message md5hex m)
    case none =>
      exact absurd h (by
        rw [enqueue_nohash_true md5hex s m p now u hde hl]
        decide)
    case some ts =>
      by_cases hage : now - ts > s.dedup_window
      · exact absurd h (by
          rw [enqueue_expired_true md5hex s m p now u ts hde hl hage]
          decide)
      · simpa only [hde] using enqueue_dup_eq md5hex s m p now u ts hde hl hage

/-- C5: with dedup on, the fingerprint is the md5 digest of
`channel:chat_id:sender_id:content`, so two messages agreeing on those
four fields share it; after a first accepted enqueue at `t1`, a second
enqueue of such a message at `t2` with `t2 - t1` under the window is
dropped — it returns false, bumps only the duplicate counter and puts
nothing on any queue — while with `t2 - t1` beyond the window it is
accepted as new (returns true, received counter bumps). -/
theorem enqueue_dedup_window_spec (md5hex : String → String) (s : EMQState)
    (m1 m2 : InboundMessage) (p1 p2 : MessagePriority) (t1 t2 : ℚ) (u1 u2 : String)
    (hde : s.dedup_enabled = true)
    (hch : m2.channel = m1.channel) (hcid : m2.chat_id = m1.chat_id)
    (hsid : m2.sender_id = m1.sender_id) (hcon : m2.content = m1.content)
    (hacc : (enqueue md5hex s m1 p1 t1 u1).1 = true) :
    hash_message md5hex m1 =
      md5hex (m1.channel ++ ":" ++ m1.chat_id ++ ":" ++ m1.sender_id ++ ":" ++
        m1.content) ∧
    hash_message md5hex m2 = hash_message md5hex m1 ∧
    (t2 - t1 < s.dedup_window →
      enqueue md5hex (enqueue md5hex s m1 p1 t1 u1).2 m2 p2 t2 u2 =
        (false, { (enqueue md5hex s m1 p1 t1 u1).2 with
                  total_duplicates :=
                    (enqueue md5hex s m1 p1 t1 u1).2.total_duplicates + 1 })) ∧
    (t2 - t1 > s.dedup_window →
      (enqueue md5hex (enqueue md5hex s m1 p1 t1 u1).2 m2 p2 t2 u2).1 = true ∧
      (enqueue md5hex (enqueue md5hex s m1 p1 t1 u1).2 m2 p2 t2 u2).2.total_received =
        (enqueue md5hex s m1 p1 t1 u1).2.total_received + 1) := by
  have hhash : hash_message md5hex m2 = hash_message md5hex m1 := by
    unfold hash_message
    rw [hch, hcid, hsid, hcon]
  have hspec := enqueue_accept_spec md5hex s m1 p1 t1 u1 hacc
  have hde1 : (enqueue md5hex s m1 p1 t1 u1).2.dedup_enabled = true := by
    rw [hspec.2.2.2.1, hde]
  have hw1 : (enqueue md5hex s m1 p1 t1 u1).2.dedup_window = s.dedup_window :=
    hspec.2.2.2.2.1
  have hl1 : (enqueue md5hex s m1 p1 t1 u1).2.message_hashes.lookup
      (hash_message md5hex m2) = some t1 := by
    rw [hhash]
    exact hspec.2.2.2.2.2 hde
  refine ⟨rfl, hhash, ?_, ?_⟩
  · intro hlt
    apply enqueue_dup_eq md5hex _ m2 p2 t2 u2 t1 hde1 hl1
    rw [hw1]
    exact lt_asymm hlt
  · intro hgt
    have hacc2 : (enqueue md5hex (enqueue md5hex s m1 p1 t1 u1).2 m2 p2 t2 u2).1 =
        true := by
      apply enqueue_expired_true md5hex _ m2 p2 t2 u2 t1 hde1 hl1
      rw [hw1]
      exact hgt
    exact ⟨hacc2, (enqueue_accept_spec md5hex _ m2 p2 t2 u2 hacc2).1⟩

/-- C5 witness: the statement evaluated with the identity standing in for
the md5 digest, a 60-second window, a first enqueue at time 0 and a second
identical message at time 30. -/
theorem enqueue_dedup_window_spec_witness :
    (EMQState.init true 60).dedup_enabled = true ∧
    ((enqueue id (EMQState.init true 60) ⟨"t", "u", "c", "h", [], []⟩ .NORMAL 0
        "a").1 = true) ∧
    (hash_message id ⟨"t", "u", "c", "h", [], []⟩ =
      id ((⟨"t", "u", "c", "h", [], []⟩ : InboundMessage).channel ++ ":" ++
        (⟨"t", "u", "c", "h", [], []⟩ : InboundMessage).chat_id ++ ":" ++
        (⟨"t", "u", "c", "h", [], []⟩ : InboundMessage).sender_id ++ ":" ++
        (⟨"t", "u", "c", "h", [], []⟩ : InboundMessage).content) ∧
    hash_message id ⟨"t", "u", "c", "h", [], []⟩ =
      hash_message id ⟨"t", "u", "c", "h", [], []⟩ ∧
    ((30 : ℚ) - 0 < (EMQState.init true 60).dedup_window →
      enqueue id (enqueue id (EMQState.init true 60) ⟨"t", "u", "c", "h", [], []⟩
          .NORMAL 0 "a").2 ⟨"t", "u", "c", "h", [], []⟩ .NORMAL 30 "b" =
        (false, { (enqueue id (EMQState.init true 60) ⟨"t", "u", "c", "h", [], []⟩
            .NORMAL 0 "a").2 with
          total_duplicates := (enqueue id (EMQState.init true 60)
            ⟨"t", "u", "c", "h", [], []⟩ .NORMAL 0 "a").2.total_duplicates + 1 })) ∧
    ((30 : ℚ) - 0 > (EMQState.init true 60).dedup_window →
      (enqueue id (enqueue id (EMQState.init true 60) ⟨"t", "u", "c", "h", [], []⟩
          .NORMAL 0 "a").2 ⟨"t", "u", "c", "h", [], []⟩ .NORMAL 30 "b").1 = true ∧
      (enqueue id (enqueue id (EMQState.init true 60) ⟨"t", "u", "c", "h", [], []⟩
          .NORMAL 0 "a").2 ⟨"t", "u", "c", "h", [], []⟩ .NORMAL 30 "b").2.total_received =
        (enqueue id (EMQState.init true 60) ⟨"t", "u", "c", "h", [], []⟩
          .NORMAL 0 "a").2.total_received + 1)) :=
  ⟨by decide, by decide,
   enqueue_dedup_window_spec id (EMQState.init true 60)
     ⟨"t", "u", "c", "h", [], []⟩ ⟨"t", "u", "c", "h", [], []⟩ .NORMAL .NORMAL 0 30
     "a" "b" (by decide) rfl rfl rfl rfl (by decide)⟩

/-- C9: a duplicate drop changes nothing but the duplicate counter — the
four inbound queues, the outbound queue, the dead-letter queue, the dedup
table and the received, processed and failed counters are all untouched,
and the call returns false. -/
theorem enqueue_duplicate_frame (md5hex : String → String) (s : EMQState)
    (m : InboundMessage) (p : MessagePriority) (now : ℚ) (u : String)
    (h : (enqueue md5hex s m p now u).1 = false) :
    (enqueue md5hex s m p now u).2.urgent_q = s.urgent_q ∧
    (enqueue md5hex s m p now u).2.high_q = s.high_q ∧
    (enqueue md5hex s m p now u).2.normal_q = s.normal_q ∧
    (enqueue md5hex s m p now u).2.low_q = s.low_q ∧
    (enqueue md5hex s m p now u).2.outbound = s.outbound ∧
    (enqueue md5hex s m p now u).2.dead_letter_queue = s.dead_letter_queue ∧
    (enqueue md5hex s m p now u).2.message_hashes = s.message_hashes ∧
    (enqueue md5hex s m p now u).2.total_received = s.total_received ∧
    (enqueue md5hex s m p now u).2.total_processed = s.total_processed ∧
    (enqueue md5hex s m p now u).2.total_failed = s.total_failed ∧
    (enqueue md5hex s m p now u).2.total_duplicates = s.total_duplicates + 1 := by
  rw [enqueue_false_eq md5hex s m p now u h]
  exact ⟨rfl, rfl, rfl, rfl, rfl, rfl, rfl, rfl, rfl, rfl, rfl⟩

/-- C9 witness: an identical message re-enqueued 30 seconds into a
60-second window is dropped, and the frame conditions hold there. -/
theorem enqueue_duplicate_frame_witness :
    ((enqueue id (enqueue id (EMQState.init true 60) ⟨"t", "u", "c", "h", [], []⟩
        .NORMAL 0 "a").2 ⟨"t", "u", "c", "h", [], []⟩ .HIGH 30 "b").1 = false) ∧
    (enqueue id (enqueue id (EMQState.init true 60) ⟨"t", "u", "c", "h", [], []⟩
        .NORMAL 0 "a").2 ⟨"t", "u", "c", "h", [], []⟩ .HIGH 30 "b").2.total_received =
      (enqueue id (EMQState.init true 60) ⟨"t", "u", "c", "h", [], []⟩
        .NORMAL 0 "a").2.total_received ∧
    (enqueue id (enqueue id (EMQState.init true 60) ⟨"t", "u", "c", "h", [], []⟩
        .NORMAL 0 "a").2 ⟨"t", "u", "c", "h", [], []⟩ .HIGH 30 "b").2.total_duplicates =
      (enqueue id (EMQState.init true 60) ⟨"t", "u", "c", "h", [], []⟩
        .NORMAL 0 "a").2.total_duplicates + 1 :=
  by
  have hdrop : (enqueue id (enqueue id (EMQState.init true 60)
      ⟨"t", "u", "c", "h", [], []⟩ .NORMAL 0 "a").2 ⟨"t", "u", "c", "h", [], []⟩
      .HIGH 30 "b").1 = false := by
    norm_num [enqueue, is_duplicate, hash_message, EMQState.init, assocInsert,
      assocErase, EMQState.putQueue, EMQState.getQueue, List.lookup]
  have h := enqueue_duplicate_frame id (enqueue id (EMQState.init true 60)
      ⟨"t", "u", "c", "h", [], []⟩ .NORMAL 0 "a").2 ⟨"t", "u", "c", "h", [], []⟩
      .HIGH 30 "b" hdrop
  exact ⟨hdrop, h.2.2.2.2.2.2.2.1, h.2.2.2.2.2.2.2.2.2.2⟩

/-- C7: at the finish signal, a buffered tool call (one that accumulated a
name) whose argument string is empty is delivered with the empty object as
its payload — the JSON decoder is never consulted, so no parse error can
occur — and one whose stripped argument string fails to decode is still
delivered, with the object `raw: <stripped string>` as its payload. -/
theorem finish_tool_calls_spec (parseJson : String → Option Json)
    (buffer : List ToolCallBuf) (b : ToolCallBuf)
    (hb : b ∈ buffer) (hn : b.name ≠ "") :
    (b.arguments = "" →
      (⟨b.id, b.name, Json.obj []⟩ : ToolCall) ∈ finish_tool_calls parseJson buffer) ∧
    (pyStrip b.arguments ≠ "" → parseJson (pyStrip b.arguments) = none →
      (⟨b.id, b.name, Json.obj [("raw", Json.str (pyStrip b.arguments))]⟩ : ToolCall) ∈
        finish_tool_calls parseJson buffer) := by
  have hmemf : b ∈ buffer.filter (fun x => x.name ≠ "") :=
    List.mem_filter.mpr ⟨hb, by simpa using hn⟩
  constructor
  · intro hempty
    have hargs : parse_arguments parseJson b.arguments = Json.obj [] := by
      unfold parse_arguments
      rw [hempty]
      rfl
    exact List.mem_map.mpr ⟨b, hmemf, by rw [hargs]⟩
  · intro hne hpf
    have hargs : parse_arguments parseJson b.arguments =
        Json.obj [("raw", Json.str (pyStrip b.arguments))] := by
      unfold parse_arguments
      simp only [if_neg hne, hpf]
    exact List.mem_map.mpr ⟨b, hmemf, by rw [hargs]⟩

/-- C7 witness: a decoder that always fails, one buffered call with empty
arguments and one with undecodable arguments; both are delivered with the
documented payloads. -/
theorem finish_tool_calls_spec_witness :
    ((⟨"1", "n1", ""⟩ : ToolCallBuf) ∈
        [(⟨"1", "n1", ""⟩ : ToolCallBuf), ⟨"2", "n2", "xyz"⟩] ∧
      ("" = "" →
        (⟨"1", "n1", Json.obj []⟩ : ToolCall) ∈
          finish_tool_calls (fun _ => none) [⟨"1", "n1", ""⟩, ⟨"2", "n2", "xyz"⟩])) ∧
    (pyStrip "xyz" ≠ "" ∧ (fun _ : String => (none : Option Json)) (pyStrip "xyz") = none ∧
      (⟨"2", "n2", Json.obj [("raw", Json.str (pyStrip "xyz"))]⟩ : ToolCall) ∈
        finish_tool_calls (fun _ => none) [⟨"1", "n1", ""⟩, ⟨"2", "n2", "xyz"⟩]) :=
  ⟨⟨by decide,
    (finish_tool_calls_spec (fun _ => none) [⟨"1", "n1", ""⟩, ⟨"2", "n2", "xyz"⟩]
      ⟨"1", "n1", ""⟩ (by decide) (by decide)).1⟩,
   ⟨by decide, rfl,
    (finish_tool_calls_spec (fun _ => none) [⟨"1", "n1", ""⟩, ⟨"2", "n2", "xyz"⟩]
      ⟨"2", "n2", "xyz"⟩ (by decide) (by decide)).2 (by decide) rfl⟩⟩

/-- Reading back the line just appended at the end of the memory file. -/
theorem read_lines_concat_last (lines : List String) (x : String) :
    read_lines (lines ++ [x]) ((lines.length : ℤ) + 1) none =
      "[" ++ toString (lines.length + 1) ++ "] " ++ x := by
  unfold read_lines
  rw [if_neg (by simp)]
  simp only [List.length_append, List.length_cons, List.length_nil, Nat.zero_add,
    Option.getD_none]
  have hmin : min ((lines.length : ℤ) + 1) (((lines.length + 1 : ℕ) : ℤ)) =
      (lines.length : ℤ) + 1 := by push_cast; omega
  have hmax : max 1 ((lines.length : ℤ) + 1) = (lines.length : ℤ) + 1 := by omega
  rw [hmin, hmax]
  have h1 : ((lines.length : ℤ) + 1 - 1).toNat = lines.length := by omega
  have h2 : (((lines.length : ℤ) + 1) ⊔ ((lines.length : ℤ) + 1)).toNat =
      lines.length + 1 := by
    omega
  rw [h1, h2, Nat.add_sub_cancel_left]
  rw [show List.range' lines.length 1 = [lines.length] from rfl]
  simp only [List.map_cons, List.map_nil]
  rw [show ∀ y : String, "\n".intercalate [y] = y from fun y => rfl]
  rw [List.getD_append_right lines [x] "" lines.length (le_refl _), Nat.sub_self]
  rfl

/-- C8: `append_entry` returns the previous line count plus one, and
reading that line back returns a line ending in the appended content after
whitespace normalization (CR/LF replaced by spaces, whitespace runs
collapsed) — so the line contains the normalized content. -/
theorem append_entry_read_back (lines : List String) (today source content : String) :
    (append_entry lines today source content).2 = lines.length + 1 ∧
    ∃ pre, read_lines (append_entry lines today source content).1
        ((append_entry lines today source content).2 : ℤ) none =
      pre ++ cleanContent content := by
  have hnum : (append_entry lines today source content).2 = lines.length + 1 := by
    simp [append_entry]
  refine ⟨hnum, "[" ++ toString (lines.length + 1) ++ "] " ++ today ++ "|" ++ source ++
    "|", ?_⟩
  rw [hnum]
  have hcast : ((lines.length + 1 : ℕ) : ℤ) = (lines.length : ℤ) + 1 := by push_cast; rfl
  show read_lines (lines ++ [today ++ "|" ++ source ++ "|" ++ cleanContent content])
      ((lines.length + 1 : ℕ) : ℤ) none = _
  rw [hcast, read_lines_concat_last]
  simp [String.append_assoc]

/-- A filter and its negation split the length of a list. -/
theorem length_filter_add_length_filter_not {α : Type} (l : List α) (p : α → Bool) :
    (l.filter p).length + (l.filter (fun x => !(p x))).length = l.length := by
  induction l with
  | nil => rfl
  | cons a t ih =>
    by_cases h : p a = true <;> simp [List.filter_cons, h] <;> omega

/-- Filtering an enumeration on indices is filtering the index range. -/
theorem enumFrom_filter_length {α : Type} (l : List α) (p : ℕ → Bool) :
    ∀ start, ((l.enumFrom start).filter (fun x => p x.1)).length =
      ((List.range' start l.length).filter p).length := by
  induction l with
  | nil => intro _; rfl
  | cons a t ih =>
    intro start
    rw [show (a :: t).enumFrom start = (start, a) :: t.enumFrom (start + 1) from rfl]
    rw [show (a :: t).length = t.length + 1 from rfl, List.range'_succ]
    by_cases h : p start = true <;> simp [List.filter_cons, h, ih (start + 1)]

/-- C10: `delete_lines` removes exactly the lines whose 1-based number
occurs among the requested numbers — so out-of-range numbers are ignored
and repeats count once — and returns that count; when the count is zero
the file is not rewritten and its contents are unchanged; and the result
depends on the requested numbers only through membership. -/
theorem delete_lines_spec (lines : List String) (nums : List ℤ) :
    (delete_lines lines nums).2.1 =
      ((List.range lines.length).filter (fun i : ℕ => ((i : ℤ) + 1) ∈ nums)).length ∧
    ((delete_lines lines nums).2.1 = 0 →
      (delete_lines lines nums).1 = lines ∧ (delete_lines lines nums).2.2 = false) ∧
    (∀ nums' : List ℤ, (∀ k, k ∈ nums ↔ k ∈ nums') →
      delete_lines lines nums' = delete_lines lines nums) := by
  have hdel : (delete_lines lines nums).2.1 = lines.length -
      ((lines.enum.filter
        (fun p => ¬ ((p.1 + 1 : ℤ) ∈ nums))).map Prod.snd).length := by
    unfold delete_lines
    split
    case isTrue h =>
      dsimp only
      omega
    case isFalse h =>
      dsimp only
      split <;> rfl
  refine ⟨?_, ?_, ?_⟩
  · rw [hdel, List.length_map]
    have henum := enumFrom_filter_length lines
      (fun i : ℕ => decide (¬ ((i + 1 : ℤ) ∈ nums))) 0
    rw [show lines.enum = lines.enumFrom 0 from rfl]
    rw [henum, ← List.range_eq_range']
    have hsplit := length_filter_add_length_filter_not (List.range lines.length)
      (fun i : ℕ => decide (((i : ℤ) + 1) ∈ nums))
    have hnot : (List.range lines.length).filter
        (fun i : ℕ => decide (¬ ((i + 1 : ℤ) ∈ nums))) =
        (List.range lines.length).filter
          (fun i : ℕ => !(decide (((i : ℤ) + 1) ∈ nums))) := by
      simp [decide_not]
    rw [hnot]
    have hrange : (List.range lines.length).length = lines.length :=
      List.length_range _
    omega
  · intro hzero
    rw [hdel] at hzero
    by_cases hlen : lines.length = 0
    · rw [List.length_eq_zero.mp hlen]
      exact ⟨rfl, rfl⟩
    · unfold delete_lines
      rw [if_neg hlen]
      dsimp only
      rw [if_neg (by omega : ¬ 0 < lines.length -
        ((lines.enum.filter (fun p => ¬ ((p.1 + 1 : ℤ) ∈ nums))).map Prod.snd).length)]
      exact ⟨rfl, rfl⟩
  · intro nums' hmem
    unfold delete_lines
    have hpred : (fun p : ℕ × String => decide (¬ ((p.1 + 1 : ℤ) ∈ nums'))) =
        (fun p : ℕ × String => decide (¬ ((p.1 + 1 : ℤ) ∈ nums))) := by
      funext p
      exact decide_eq_decide.mpr (not_congr (hmem _).symm)
    rw [hpred]

/-- C10 witness: on a three-line file, requesting lines 5 and 0 (both out
of range) deletes nothing, leaves the file unrewritten, and the order of
the requested numbers does not matter. -/
theorem delete_lines_spec_witness :
    ((delete_lines ["a", "b", "c"] [5, 0]).2.1 =
      ((List.range (["a", "b", "c"] : List String).length).filter
        (fun i => ((i : ℤ) + 1) ∈ ([5, 0] : List ℤ))).length ∧
    ((delete_lines ["a", "b", "c"] [5, 0]).1 = ["a", "b", "c"] ∧
      (delete_lines ["a", "b", "c"] [5, 0]).2.2 = false) ∧
    delete_lines ["a", "b", "c"] [0, 5] = delete_lines ["a", "b", "c"] [5, 0]) := by
  have h := delete_lines_spec ["a", "b", "c"] [5, 0]
  exact ⟨h.1, h.2.1 (by decide), h.2.2 [0, 5] (by
    intro k
    simp only [List.mem_cons, List.not_mem_nil, or_false]
    exact or_comm)⟩

/-- The modelled `croniter.get_next` lands strictly after its base time. -/
theorem calculate_next_run_gt (p : ℕ) (base : ℚ)
    (hp : validate_schedule p = true) : base < calculate_next_run p base := by
  have hp0 : (0 : ℚ) < (p : ℚ) := by
    have hne : p ≠ 0 := by simpa [validate_schedule] using hp
    exact_mod_cast Nat.pos_of_ne_zero hne
  unfold calculate_next_run
  have h := Int.lt_floor_add_one (base / (p : ℚ))
  calc base = base / (p : ℚ) * (p : ℚ) := by field_simp
    _ < ((⌊base / (p : ℚ)⌋ : ℚ) + 1) * (p : ℚ) := by
        exact (mul_lt_mul_right hp0).mpr h
    _ = (p : ℚ) * ((⌊base / (p : ℚ)⌋ : ℚ) + 1) := mul_comm _ _

/-- A job whose `next_run` was just recomputed from `now` satisfies the
cron invariant at `now`. -/
theorem cronInvariant_of_fresh (j : CronJob) (now : ℚ)
    (hval : j.enabled = true → validate_schedule j.schedule = true) :
    cronInvariant { j with
      next_run := if j.enabled then some (calculate_next_run j.schedule now) else none
      updated_at := now } now := by
  constructor
  · intro hen
    have hen' : j.enabled = true := hen
    refine ⟨calculate_next_run j.schedule now, ?_, calculate_next_run_gt _ _ (hval hen')⟩
    simp [hen']
  · intro hen
    have hen' : j.enabled = false := hen
    simp [hen']

/-- C3 counterexample: an enabled every-60-seconds job whose execution
starts at time 0 and finishes at time 90 ends with `next_run = 60`, which
is not strictly in the future at time 90 — `_execute_job` computes
`next_run` from the execution's start time, so the claimed invariant fails
right after a long job execution completes. -/
theorem cron_invariant_violated_after_execution :
    (execute_job ⟨"j1", "daily", 60, "ping", true, some 0, none, none, 0, 0, 0, 0⟩
      0 (some "r")).enabled = true ∧
    (execute_job ⟨"j1", "daily", 60, "ping", true, some 0, none, none, 0, 0, 0, 0⟩
      0 (some "r")).next_run = some 60 ∧
    ¬ cronInvariant (execute_job ⟨"j1", "daily", 60, "ping", true, some 0, none,
      none, 0, 0, 0, 0⟩ 0 (some "r")) 90 := by
  have hval : calculate_next_run 60 0 = 60 := by
    unfold calculate_next_run
    norm_num
  have hnr : (execute_job ⟨"j1", "daily", 60, "ping", true, some 0, none, none,
      0, 0, 0, 0⟩ 0 (some "r")).next_run = some 60 := by
    show some (calculate_next_run 60 0) = some 60
    rw [hval]
  refine ⟨rfl, hnr, ?_⟩
  intro hinv
  obtain ⟨t, ht, hlt⟩ := hinv.1 rfl
  rw [hnr] at ht
  have : t = 60 := by
    injection ht with h
    exact h.symm
  rw [this] at hlt
  norm_num at hlt

/-- C3 (amended): after `add_job`, after `update_job`, and for the jobs a
reschedule cycle refreshes, an enabled job's `next_run` is set strictly
later than the operation's time and a disabled job's is unset; after a job
execution, an enabled job's `next_run` is set strictly later than the
execution's start time — which can lie in the past once the execution
finishes, since `next_run` is computed with `base_time = started_at`. -/
theorem cron_next_run_spec :
    (∀ (now : ℚ) (id name : String) (p : ℕ) (msg : String) (en : Bool) (job : CronJob),
      add_job now id name p msg en = .ok job → cronInvariant job now) ∧
    (∀ (job : CronJob) (u : CronJobUpdate) (now : ℚ) (job' : CronJob),
      update_job job u now = .ok job' → cronInvariant job' now) ∧
    (∀ (jobs : List CronJob) (now : ℚ) (j : CronJob),
      j ∈ recompute_next_runs jobs now → j.enabled = true →
      validate_schedule j.schedule = true →
      ∃ t, j.next_run = some t ∧ now < t) ∧
    (∀ (job : CronJob) (started_at : ℚ) (response : Option String),
      job.enabled = true → validate_schedule job.schedule = true →
      ∃ t, (execute_job job started_at response).next_run = some t ∧
        started_at < t) := by
  refine ⟨?_, ?_, ?_, ?_⟩
  · intro now id name p msg en job h
    unfold add_job at h
    by_cases hv : validate_schedule p = true
    · rw [if_neg (not_not_intro hv)] at h
      cases h
      exact cronInvariant_of_fresh
        ⟨id, name, p, msg, en, none, none, none, 0, 0, now, now⟩ now (fun _ => hv)
    · rw [if_pos (by simpa using hv)] at h
      exact Except.noConfusion h
  · intro job u now job' h
    unfold update_job at h
    split at h
    · exact Except.noConfusion h
    · dsimp only at h
      split at h
      · exact Except.noConfusion h
      · case isFalse h2 =>
        cases h
        apply cronInvariant_of_fresh
        intro hen
        by_cases hvv : validate_schedule (apply_updates job u).schedule = true
        · exact hvv
        · exact absurd ⟨hen, by simpa using hvv⟩ h2
  · intro jobs now j hj hen hval
    rcases List.mem_map.mp hj with ⟨j0, hj0, rfl⟩
    by_cases h0 : j0.enabled = true
    · by_cases hv0 : validate_schedule j0.schedule = true
      · refine ⟨calculate_next_run j0.schedule now, ?_,
          calculate_next_run_gt _ _ hv0⟩
        simp [h0, hv0]
      · exact absurd (by simpa [h0, hv0] using hval) hv0
    · exact absurd (by simpa [h0] using hen) h0
  · intro job started_at response hen hval
    have hx : execute_job job started_at response =
        { job with
          last_run := some started_at
          last_status := some "ok"
          run_count := job.run_count + 1
          next_run := some (calculate_next_run job.schedule started_at) } := by
      unfold execute_job
      simp [hen, hval]
    rw [hx]
    exact ⟨calculate_next_run job.schedule started_at, rfl,
      calculate_next_run_gt _ _ hval⟩

/-- C3 witness: the amended statement evaluated on concrete every-minute
jobs — a fresh add at time 0, a disabling update at time 3, a reschedule
cycle at time 7, and an execution started at time 5. -/
theorem cron_next_run_spec_witness :
    cronInvariant ⟨"i", "n", 60, "m", true, some (calculate_next_run 60 0), none,
      none, 0, 0, 0, 0⟩ 0 ∧
    cronInvariant ⟨"j1", "daily", 60, "ping", false, none, none, none, 0, 0, 0, 3⟩ 3 ∧
    (∃ t, (⟨"j1", "daily", 60, "ping", true, some (calculate_next_run 60 7), none,
      none, 0, 0, 0, 0⟩ : CronJob).next_run = some t ∧ (7 : ℚ) < t) ∧
    (∃ t, (execute_job ⟨"j1", "daily", 60, "ping", true, some 0, none, none, 0, 0,
      0, 0⟩ 5 (some "ok")).next_run = some t ∧ (5 : ℚ) < t) := by
  refine ⟨?_, ?_, ?_, ?_⟩
  · exact cron_next_run_spec.1 0 "i" "n" 60 "m" true _ rfl
  · exact cron_next_run_spec.2.1 ⟨"j1", "daily", 60, "ping", true, some 0, none,
      none, 0, 0, 0, 0⟩ ⟨none, none, none, some false⟩ 3 _ rfl
  · have hmem : (⟨"j1", "daily", 60, "ping", true, some (calculate_next_run 60 7),
        none, none, 0, 0, 0, 0⟩ : CronJob) ∈
        recompute_next_runs [⟨"j1", "daily", 60, "ping", true, some 0, none, none,
          0, 0, 0, 0⟩] 7 := by
      show _ ∈ [_]
      exact List.mem_singleton_self _
    exact cron_next_run_spec.2.2.1 _ 7 _ hmem rfl rfl
  · exact cron_next_run_spec.2.2.2 _ 5 (some "ok") rfl rfl

/-- Unfolding one step of `checkRun`. -/
theorem checkRun_cons (st : RateLimiterState) (u : String) (t : ℚ) (ts : List ℚ) :
    checkRun st u (t :: ts) =
      ((check st u t).1 :: (checkRun (check st u t).2 u ts).1,
       (checkRun (check st u t).2 u ts).2) := rfl

/-- `checkRun` over a concatenation of call sequences. -/
theorem checkRun_append (st : RateLimiterState) (u : String) (ts1 ts2 : List ℚ) :
    checkRun st u (ts1 ++ ts2) =
      ((checkRun st u ts1).1 ++ (checkRun (checkRun st u ts1).2 u ts2).1,
       (checkRun (checkRun st u ts1).2 u ts2).2) := by
  induction ts1 generalizing st with
  | nil => simp [checkRun]
  | cons t rest ih =>
    rw [show (t :: rest) ++ ts2 = t :: (rest ++ ts2) from rfl]
    rw [checkRun_cons, checkRun_cons, ih (check st u t).2]
    rfl

/-- A call arriving at the bucket's own update instant consumes one token
when at least one is left. -/
theorem check_same_instant_allowed (rate per : ℕ) (u : String) (t0 : ℚ) (j : ℕ)
    (hge : (1 : ℚ) ≤ (rate : ℚ) - 1 - j) :
    check (singleBucket rate per u ((rate : ℚ) - 1 - j) t0) u t0 =
      ((true, 0), singleBucket rate per u ((rate : ℚ) - 1 - j - 1) t0) := by
  unfold check singleBucket
  rw [show List.lookup u [(u, ((rate : ℚ) - 1 - j, t0))] =
    some ((rate : ℚ) - 1 - j, t0) from by simp [List.lookup]]
  dsimp only
  have harith : min (rate : ℚ)
      ((rate : ℚ) - 1 - j + (t0 - t0) * ((rate : ℚ) / (per : ℚ))) =
      (rate : ℚ) - 1 - j := by
    rw [sub_self, zero_mul, add_zero]
    refine min_eq_right ?_
    have : (0 : ℚ) ≤ (j : ℚ) := Nat.cast_nonneg j
    linarith
  rw [harith, if_pos hge]
  simp [assocInsert, assocErase]

/-- Running `k` further same-instant calls against a bucket with
`rate - 1 - j` tokens: all are allowed and `k` more tokens are consumed. -/
theorem checkRun_same_instant (rate per : ℕ) (u : String) (t0 : ℚ) :
    ∀ (k j : ℕ), j + k ≤ rate - 1 → 1 ≤ rate →
      checkRun (singleBucket rate per u ((rate : ℚ) - 1 - j) t0) u
          (List.replicate k t0) =
        (List.replicate k (true, 0),
         singleBucket rate per u ((rate : ℚ) - 1 - j - k) t0) := by
  intro k
  induction k with
  | zero =>
    intro j hj hr
    simp [checkRun]
  | succ k ih =>
    intro j hj hr
    have hge : (1 : ℚ) ≤ (rate : ℚ) - 1 - j := by
      have h2 : j + 2 ≤ rate := by omega
      have hq : ((j : ℚ)) + 2 ≤ (rate : ℚ) := by exact_mod_cast h2
      linarith
    rw [show List.replicate (k + 1) t0 = t0 :: List.replicate k t0 from rfl]
    rw [checkRun_cons, check_same_instant_allowed rate per u t0 j hge]
    dsimp only
    have hstep : (rate : ℚ) - 1 - j - 1 = (rate : ℚ) - 1 - (j + 1 : ℕ) := by
      push_cast
      ring
    rw [hstep, ih (j + 1) (by omega) hr]
    rw [show List.replicate (k + 1) ((true : Bool), (0 : ℤ)) =
      (true, (0 : ℤ)) :: List.replicate k (true, 0) from rfl]
    have hfin : (rate : ℚ) - 1 - (j + 1 : ℕ) - k =
        (rate : ℚ) - 1 - j - (k + 1 : ℕ) := by
      push_cast
      ring
    rw [hfin]

/-- A same-instant call against an empty bucket is denied with the
truncated wait `per / rate`, and the bucket entry is left unchanged. -/
theorem check_denied_at_zero (rate per : ℕ) (u : String) (t0 : ℚ) :
    check (singleBucket rate per u 0 t0) u t0 =
      ((false, ⌊(per : ℚ) / (rate : ℚ)⌋), singleBucket rate per u 0 t0) := by
  unfold check singleBucket
  rw [show List.lookup u [(u, ((0 : ℚ), t0))] = some ((0 : ℚ), t0) from by
    simp [List.lookup]]
  dsimp only
  have harith : min (rate : ℚ) (0 + (t0 - t0) * ((rate : ℚ) / (per : ℚ))) = 0 := by
    rw [sub_self, zero_mul, add_zero]
    exact min_eq_right (Nat.cast_nonneg rate)
  rw [harith, if_neg (by norm_num)]
  have hwait : pyInt ((1 - 0) * ((per : ℚ) / (rate : ℚ))) =
      ⌊(per : ℚ) / (rate : ℚ)⌋ := by
    unfold pyInt
    rw [show ((1 : ℚ) - 0) * ((per : ℚ) / (rate : ℚ)) =
      (per : ℚ) / (rate : ℚ) from by ring]
    rw [if_pos (by positivity)]
  rw [hwait]

/-- C6 counterexample: with `rate = 2, per = 2`, three calls at times
0, 0 and 3/2 — all within `per` seconds of each other — are all allowed,
because tokens replenish between calls, so the (rate+1)-th call within
`per` seconds need not be denied; and with `rate = 1, per = 1`, the second
call at time 1/2 is denied with a truncated wait of 0 seconds, so a denial
need not report a wait strictly greater than 0. -/
theorem rate_limiter_claim_counterexample :
    ((checkRun (RateLimiterState.init 2 2) "u" [0, 0, 3/2]).1.map Prod.fst =
        [true, true, true] ∧ (3/2 : ℚ) - 0 < 2) ∧
    ((checkRun (RateLimiterState.init 1 1) "u" [0, 1/2]).1 =
        [(true, 0), (false, 0)] ∧ (1/2 : ℚ) - 0 < 1) := by
  refine ⟨⟨?_, by norm_num⟩, ⟨?_, by norm_num⟩⟩
  · norm_num [checkRun, check, RateLimiterState.init, assocInsert, assocErase,
      List.lookup, pyInt]
  · norm_num [checkRun, check, RateLimiterState.init, assocInsert, assocErase,
      List.lookup, pyInt]

/-- C6 (amended): for `rate ≥ 1`, a sender's first ever call is allowed
and installs a full bucket minus one token; `rate + 1` calls all arriving
at the same instant give `rate` allowed calls followed by a denial whose
reported wait is `⌊per / rate⌋` seconds, which is strictly positive
whenever `per ≥ rate` (with time passing between calls, tokens replenish
at `rate / per` per second, so the `(rate+1)`-th call within `per` seconds
can be allowed, and a denial's truncated wait can be 0). -/
theorem rate_limiter_burst_spec (rate per : ℕ) (u : String) (t0 : ℚ)
    (hr : 1 ≤ rate) :
    check (RateLimiterState.init rate per) u t0 =
      ((true, 0), singleBucket rate per u ((rate : ℚ) - 1) t0) ∧
    (checkRun (RateLimiterState.init rate per) u (List.replicate (rate + 1) t0)).1 =
      List.replicate rate (true, 0) ++ [(false, ⌊(per : ℚ) / (rate : ℚ)⌋)] ∧
    (rate ≤ per → 1 ≤ ⌊(per : ℚ) / (rate : ℚ)⌋) := by
  have hfirst : check (RateLimiterState.init rate per) u t0 =
      ((true, 0), singleBucket rate per u ((rate : ℚ) - 1) t0) := by
    unfold check RateLimiterState.init singleBucket
    rw [show List.lookup u ([] : List (String × (ℚ × ℚ))) = none from rfl]
    simp [assocInsert, assocErase]
  refine ⟨hfirst, ?_, ?_⟩
  · rw [show List.replicate (rate + 1) t0 = t0 :: List.replicate rate t0 from rfl]
    rw [checkRun_cons, hfirst]
    dsimp only
    have hsplit : List.replicate rate t0 = List.replicate (rate - 1) t0 ++ [t0] := by
      rw [← List.replicate_succ']
      congr 1
      omega
    rw [hsplit, checkRun_append]
    have h0cast : (rate : ℚ) - 1 - ((0 : ℕ) : ℚ) = (rate : ℚ) - 1 := by
      push_cast
      ring
    have hmid := checkRun_same_instant rate per u t0 (rate - 1) 0 (by omega) hr
    rw [h0cast] at hmid
    rw [hmid]
    dsimp only
    have hz : (rate : ℚ) - 1 - ((rate - 1 : ℕ) : ℚ) = 0 := by
      have hc : ((rate - 1 : ℕ) : ℚ) = (rate : ℚ) - 1 := by
        push_cast [hr]
        ring
      rw [hc]
      ring
    rw [hz]
    rw [show checkRun (singleBucket rate per u 0 t0) u [t0] =
      ([(false, ⌊(per : ℚ) / (rate : ℚ)⌋)], singleBucket rate per u 0 t0) from by
        rw [checkRun_cons, check_denied_at_zero rate per u t0]
        rfl]
    dsimp only
    rw [show List.replicate rate ((true : Bool), (0 : ℤ)) =
      (true, (0 : ℤ)) :: List.replicate (rate - 1) (true, 0) from by
        rw [← List.replicate_succ]
        congr 1
        omega]
    simp
  · intro hrp
    have hrpos : (0 : ℚ) < (rate : ℚ) := by exact_mod_cast hr
    rw [Int.le_floor]
    push_cast
    rw [le_div_iff₀ hrpos]
    have hper : (rate : ℚ) ≤ (per : ℚ) := by exact_mod_cast hrp
    linarith

/-- C6 witness: the amended statement evaluated at `rate = 2, per = 3`
with three simultaneous calls at time 0. -/
theorem rate_limiter_burst_spec_witness :
    (1 ≤ 2) ∧
    (check (RateLimiterState.init 2 3) "u" 0 =
        ((true, 0), singleBucket 2 3 "u" (((2 : ℕ) : ℚ) - 1) 0) ∧
      (checkRun (RateLimiterState.init 2 3) "u" (List.replicate (2 + 1) 0)).1 =
        List.replicate 2 (true, 0) ++ [(false, ⌊((3 : ℕ) : ℚ) / ((2 : ℕ) : ℚ)⌋)] ∧
      (2 ≤ 3 → 1 ≤ ⌊((3 : ℕ) : ℚ) / ((2 : ℕ) : ℚ)⌋)) :=
  ⟨by decide, rate_limiter_burst_spec 2 3 "u" 0 (by decide)⟩

end CountBot
